import Mathlib

/-!
Verification development for the Ukraine damage-mapping pipeline
(prs-eth/ukraine-damage-mapping-tool).

The repository ships a Makefile, a classification notebook and a README
describing the pipeline; the spec describes the orchestration contract
(tiling, reducers, remote-asset caching, per-tile inference, aggregation).
Components whose code is not in the visible sources are modelled from the
spec; the Makefile and the notebook configuration are embedded directly
from the sources.
-/

namespace UkraineDamage

/-! ## Makefile `env` target (src/unnamed/part_000, lines 3-13)

The target tests whether the directory `./ukraine_env` exists.  If it does,
it only echoes an activation hint; otherwise it echoes progress messages,
creates the conda environment at that path, and installs packages with pip
and uv.  We embed the target as a function from the filesystem state (does
`./ukraine_env` exist?) to the new state plus the ordered list of observable
actions the shell performs. -/

/-- The observable actions the `env` target of the Makefile can perform. -/
inductive MakeAction where
  | echoAlreadyExists     -- "Environment './ukraine_env' already exists. Activate it ..."
  | echoCreating          -- "Environment './ukraine_env' does not exist. Creating it..."
  | condaCreate           -- conda create -p ./ukraine_env python=3.12 geopandas gdal ...
  | echoInstalling        -- "Installing additional packages with pip..."
  | pipInstallUv          -- ./ukraine_env/bin/python -m pip install uv
  | uvPipInstallReqs      -- ./ukraine_env/bin/python -m uv pip install -r requirements.txt
  | echoComplete          -- "Setup complete. Activate it with: conda activate ./ukraine_env"
  deriving DecidableEq, Repr

/-- Which actions mutate the machine (environment creation / package
installation), as opposed to printing text. -/
def MakeAction.mutates : MakeAction → Bool
  | .condaCreate => true
  | .pipInstallUv => true
  | .uvPipInstallReqs => true
  | _ => false

/-- The filesystem state the `env` target inspects and modifies: whether the
directory `./ukraine_env` exists. -/
structure FsState where
  ukraineEnvDirExists : Bool
  deriving DecidableEq, Repr

/-- The `env` target of the Makefile: `if [ -d "./ukraine_env" ]` echoes the
activation hint, else creates the environment (so the directory exists
afterwards) and installs the packages. -/
def envTarget (s : FsState) : FsState × List MakeAction :=
  if s.ukraineEnvDirExists then
    (s, [.echoAlreadyExists])
  else
    ({ ukraineEnvDirExists := true },
     [.echoCreating, .condaCreate, .echoInstalling, .pipInstallUv,
      .uvPipInstallReqs, .echoComplete])

/-- Running the `env` target twice in succession: state and concatenated
action trace. -/
def envTargetTwice (s : FsState) : FsState × List MakeAction :=
  let r1 := envTarget s
  let r2 := envTarget r1.1
  (r2.1, r1.2 ++ r2.2)

/-! ## Run configuration (src/notebooks/classification.ipynb, `cfg` cell)

The notebook builds the run configuration as an `OmegaConf` dictionary.  We
embed it as a tree of keyed values.  The constants `ASSETS_PATH`,
`DATA_PATH` and `AOIS_TEST` are imported from `src.constants`, which is not
among the visible sources, so the embedded `cfg` is parameterised over
them. -/

/-- A configuration value as built by the notebook (`OmegaConf.create` over
nested Python dicts). -/
inductive CfgValue where
  | vStr (s : String)
  | vInt (n : Int)
  | vBool (b : Bool)
  | vNone
  | vStrList (l : List String)
  | vIntList (l : List Int)
  | vDatePair (a b : String)
  | vDict (d : List (String × CfgValue))

/-- Look up a top-level key in a configuration dictionary. -/
def lookupKey : List (String × CfgValue) → String → Option CfgValue
  | [], _ => none
  | (k, v) :: rest, key => if k = key then some v else lookupKey rest key

/-- Look up a nested key: `lookupPath d [k1, k2]` descends through
sub-dictionaries. -/
def lookupPath (d : List (String × CfgValue)) : List String → Option CfgValue
  | [] => some (.vDict d)
  | [k] => lookupKey d k
  | k :: rest =>
    match lookupKey d k with
    | some (.vDict d') => lookupPath d' rest
    | _ => none

/-- The `cfg` object of the classification notebook, field for field.
`aoisTest` stands for the imported constant `AOIS_TEST`; `geeFolder` and
`localFolder` for the paths derived from `ASSETS_PATH` and `DATA_PATH`. -/
def cfg (aoisTest : CfgValue) (geeFolder localFolder : String) :
    List (String × CfgValue) :=
  [ ("aggregation_method", .vStr "mean"),
    ("model_name", .vStr "random_forest"),
    ("model_kwargs", .vDict
      [ ("numberOfTrees", .vInt 50),
        ("minLeafPopulation", .vInt 3),
        ("maxNodes", .vInt 10000) ]),
    ("data", .vDict
      [ ("s1", .vDict [("subset_bands", .vNone)]),
        ("s2", .vNone),
        ("aois_test", aoisTest),
        ("damages_to_keep", .vIntList [1, 2]),
        ("extract_winds", .vStr "1x1"),
        ("time_periods", .vDict
          [ ("pre", .vDatePair "2020-02-24" "2021-02-23"),
            ("post", .vStr "3months") ]) ]),
    ("reducer_names", .vStrList
      ["mean", "stdDev", "median", "min", "max", "skew", "kurtosis"]),
    ("seed", .vInt 0),
    ("gee_folder", .vStr geeFolder),
    ("local_folder", .vStr localFolder),
    ("train_on_all_data", .vBool false) ]

/-- The fields the spec requires of every run configuration, as key paths
into the configuration dictionary. -/
def requiredCfgPaths : List (List String) :=
  [ ["aggregation_method"],
    ["model_name"],
    ["model_kwargs"],
    ["data", "s1", "subset_bands"],
    ["data", "aois_test"],
    ["data", "damages_to_keep"],
    ["data", "extract_winds"],
    ["data", "time_periods", "pre"],
    ["data", "time_periods", "post"],
    ["reducer_names"],
    ["seed"],
    ["gee_folder"],
    ["local_folder"],
    ["train_on_all_data"] ]

/-! ## Country-Scale Orchestrator: resume (spec §4.6)

The orchestrator's code (`src/inference/full_ukraine.py` in the README's
layout) is not among the visible sources; the model below follows the
spec. -/

/-- Status of a tile in the run manifest. -/
inductive TileStatus where
  | pending
  | done
  | failed
  deriving DecidableEq, Repr

/-- One line of the persisted run manifest: tile id and its recorded
status. -/
structure ManifestEntry where
  tileId : String
  status : TileStatus
  deriving DecidableEq, Repr

/-- Whether a manifest entry is recorded DONE. -/
def isDone (e : ManifestEntry) : Bool :=
  match e.status with
  | .done => true
  | _ => false

/-- Modelled from the spec: `resume(manifest_path) -> RunManifest` of the
Country-Scale Orchestrator (§4.6), whose source file is not among the
visible sources.  It consults the manifest, skips every tile already DONE,
dispatches the remaining tiles to the tile driver (`work` gives the status
each dispatched tile reaches), and records the updated statuses.  Returns
the new manifest together with the list of entries actually dispatched. -/
def resume (work : String → TileStatus) (m : List ManifestEntry) :
    List ManifestEntry × List ManifestEntry :=
  (m.map fun e =>
      if isDone e then e else { e with status := work e.tileId },
   m.filter fun e => ! isDone e)

/-- The number of tiles recorded DONE in a manifest. -/
def doneCount (m : List ManifestEntry) : Nat :=
  (m.filter isDone).length

/-! ## Classifier Adapter (spec §4.4)

`src/classification/models.py` is not among the visible sources; the model
below follows the spec. -/

/-- The error the adapter raises when inference-time feature columns differ
from training-time columns. -/
inductive AdapterError where
  | schemaMismatch
  deriving DecidableEq, Repr

/-- A trained model handle: the underlying model's prediction function
together with the feature schema (ordered column names) captured at fit
time. -/
structure ModelHandle where
  trainedCols : List String
  underlyingPredict : List (List Rat) → List Nat

/-- Modelled from the spec: the Classifier Adapter's predict path (§4.4),
whose source file is not among the visible sources.  It enforces the
feature-schema invariant before calling the underlying model: if the
inference-time columns differ from the training-time columns in names,
order, or count it fails with `SchemaMismatchError`; otherwise it calls the
underlying model exactly once.  The second component counts the calls made
to the underlying model's predict. -/
def adapterPredict (model : ModelHandle) (cols : List String)
    (rows : List (List Rat)) : Except AdapterError (List Nat) × Nat :=
  if cols = model.trainedCols then
    (.ok (model.underlyingPredict rows), 1)
  else
    (.error .schemaMismatch, 0)

/-! ## Tile Inference Driver: retry policy (spec §4.5)

`src/inference/dense_inference.py` is not among the visible sources; the
model below follows the spec. -/

/-- The per-tile error taxonomy of §7 relevant to the retry policy. -/
inductive TileErr where
  | transientBackend
  | fatalBackend
  | schemaMismatch
  | malformedAOI
  deriving DecidableEq, Repr

/-- Whether an error is transient (retried) or fatal (no retry). -/
def TileErr.isTransient : TileErr → Bool
  | .transientBackend => true
  | _ => false

/-- Outcome of one attempt at a tile's work. -/
inductive Attempt where
  | ok (label : Nat)
  | err (e : TileErr)
  deriving DecidableEq, Repr

/-- Terminal result of a tile. -/
inductive TileRes where
  | done (label : Nat)
  | failed (e : TileErr)
  deriving DecidableEq, Repr

/-- Modelled from the spec: the driver's bounded-retry loop (§4.5), whose
source file is not among the visible sources.  `work n` is the outcome of
the n-th attempt; transient errors are retried while retries remain, any
other error short-circuits to FAILED.  Returns the terminal result and the
total number of attempts made. -/
def driveFrom (work : Nat → Attempt) : Nat → Nat → TileRes × Nat
  | attempt, retriesLeft =>
    match work attempt with
    | .ok l => (.done l, attempt + 1)
    | .err e =>
      if e.isTransient then
        match retriesLeft with
        | 0 => (.failed e, attempt + 1)
        | r + 1 => driveFrom work (attempt + 1) r
      else
        (.failed e, attempt + 1)

/-- Run one tile with the configured retry limit. -/
def driveTile (work : Nat → Attempt) (maxRetries : Nat) : TileRes × Nat :=
  driveFrom work 0 maxRetries

/-- Modelled from the spec: the orchestrator processes sibling tiles
independently — every tile is driven to a terminal state regardless of the
others' outcomes (§4.5: a failed tile does not abort sibling tiles). -/
def processTiles (tiles : List (Nat → Attempt)) (maxRetries : Nat) :
    List (TileRes × Nat) :=
  tiles.map fun w => driveTile w maxRetries

/-! ## Aggregator (spec §4.7)

`src/postprocessing/` is not among the visible sources; the model below
follows the spec: FAILED and `insufficient_data` units are excluded from
rate denominators and reported separately as coverage gaps. -/

/-- The damage label a tile's units receive. -/
inductive UnitLabel where
  | noDamage
  | damaged
  deriving DecidableEq, Repr

/-- The recorded outcome of one tile in the persisted manifest. -/
inductive TileOutcome where
  | success (label : UnitLabel)
  | insufficientData
  | failed (e : TileErr)
  deriving DecidableEq, Repr

/-- One persisted per-tile result. -/
structure TileResult where
  tileId : String
  outcome : TileOutcome
  deriving DecidableEq, Repr

/-- A tile counts toward the rate denominator iff it succeeded with a
label. -/
def TileResult.isValid (t : TileResult) : Bool :=
  match t.outcome with
  | .success _ => true
  | _ => false

/-- A tile counts toward the rate numerator iff it succeeded with label
`damaged`. -/
def TileResult.isDamaged (t : TileResult) : Bool :=
  match t.outcome with
  | .success .damaged => true
  | _ => false

/-- The area-level rollup the Aggregator produces. -/
structure AggregateResult where
  boundary : String
  totalTiles : Nat
  validTiles : Nat
  damagedTiles : Nat
  coverageGapTiles : Nat
  damageRate : Rat
  deriving DecidableEq, Repr

/-- Modelled from the spec: `aggregate(run_manifest, boundary_layer) ->
AggregateResult` (§4.7), whose source files are not among the visible
sources.  A pure function of the persisted TileResults: the damage rate is
computed over the valid (successful) tiles only, FAILED and
`insufficient_data` tiles are excluded from the denominator and reported as
coverage gaps. -/
def aggregate (results : List TileResult) (boundaryLayer : String) :
    AggregateResult :=
  let valid := (results.filter TileResult.isValid).length
  let damaged := (results.filter TileResult.isDamaged).length
  { boundary := boundaryLayer
    totalTiles := results.length
    validTiles := valid
    damagedTiles := damaged
    coverageGapTiles := results.length - valid
    damageRate := (damaged : Rat) / (valid : Rat) }

/-- Byte serialization of an AggregateResult, as written to the output
product. -/
def serializeAggregate (r : AggregateResult) : String :=
  r.boundary ++ ";" ++ toString r.totalTiles ++ ";" ++ toString r.validTiles
    ++ ";" ++ toString r.damagedTiles ++ ";" ++ toString r.coverageGapTiles
    ++ ";" ++ toString r.damageRate.num ++ "/" ++ toString r.damageRate.den

/-- Running the Aggregator over the manifest: it returns its output
together with the (untouched) TileResults it read. -/
def aggregateRun (results : List TileResult) (boundaryLayer : String) :
    AggregateResult × List TileResult :=
  (aggregate results boundaryLayer, results)

/-- The end-to-end scenario of §8: an AOI of 4 tiles where 2 succeed with
labels [no_damage, damaged], 1 fails with `FatalBackendError` and 1 is
`insufficient_data`. -/
def scenarioManifest : List TileResult :=
  [⟨"t1", .success .noDamage⟩, ⟨"t2", .success .damaged⟩,
   ⟨"t3", .failed .fatalBackend⟩, ⟨"t4", .insufficientData⟩]

/-! ## Tiler (spec §4.1)

`src/data/quadkeys.py` is not among the visible sources; the model below
follows the spec: a quadkey-style grid at a given zoom partitions the plane
into axis-aligned cells of side `2 ^ resolution`, and the tiler returns the
grid cells covering the AOI's bounding box in a fixed row-major order. -/

/-- An area of interest: an identifier and the point set of its extent
(coordinates in the tiling plane). -/
structure AOI where
  aoiId : String
  pts : List (Int × Int)

/-- A quadkey-style tile: zoom level and cell indices. -/
structure Tile where
  zoom : Nat
  tx : Int
  ty : Int
  deriving DecidableEq, Repr

/-- The hierarchical address string of a tile. -/
def Tile.tileId (t : Tile) : String :=
  toString t.zoom ++ "/" ++ toString t.tx ++ "/" ++ toString t.ty

/-- Side length of a tile at a resolution. -/
def tileSize (resolution : Nat) : Int := 2 ^ resolution

/-- The cell with indices (tx, ty) at zoom z spans
`[tx*s, (tx+1)*s) × [ty*s, (ty+1)*s)` for `s = 2 ^ z`. -/
def Tile.contains (t : Tile) (p : Int × Int) : Prop :=
  t.tx * tileSize t.zoom ≤ p.1 ∧ p.1 < (t.tx + 1) * tileSize t.zoom ∧
  t.ty * tileSize t.zoom ≤ p.2 ∧ p.2 < (t.ty + 1) * tileSize t.zoom

instance (t : Tile) (p : Int × Int) : Decidable (t.contains p) := by
  unfold Tile.contains; infer_instance

/-- The integers from `a` to `b` inclusive, in increasing order. -/
def intRange (a b : Int) : List Int :=
  (List.range (b - a + 1).toNat).map fun (i : Nat) => a + (i : Int)

/-- Least element of a list of coordinates (0 for the empty list). -/
def lowEnd (l : List Int) : Int := l.foldl min (l.headD 0)

/-- Greatest element of a list of coordinates (0 for the empty list). -/
def highEnd (l : List Int) : Int := l.foldl max (l.headD 0)

/-- Modelled from the spec: `tile(aoi, resolution) -> ordered sequence of
Tile` (§4.1), whose source file (`src/data/quadkeys.py`) is not among the
visible sources.  Enumerates, in row-major order, the grid cells of side
`2 ^ resolution` whose index range covers the AOI's bounding box. -/
def tile (aoi : AOI) (resolution : Nat) : List Tile :=
  if aoi.pts.isEmpty then []
  else
    let s := tileSize resolution
    let xs := aoi.pts.map Prod.fst
    let ys := aoi.pts.map Prod.snd
    (intRange ((lowEnd xs) / s) ((highEnd xs) / s)).flatMap fun tx =>
      (intRange ((lowEnd ys) / s) ((highEnd ys) / s)).map fun ty =>
        ⟨resolution, tx, ty⟩

/-! ## Reducer Engine (spec §4.2)

`src/classification/reducers.py` is not among the visible sources; the
model below follows the spec's partial-coverage policy. -/

/-- The time-series observations of one spatial unit, one list per
sub-window of the extraction time window. -/
structure UnitObs where
  unitId : String
  obs : List (List Rat)
  deriving DecidableEq, Repr

/-- A unit with zero observations across all sub-windows. -/
def allWindowsEmpty (u : UnitObs) : Bool :=
  u.obs.all fun w => w.isEmpty

/-- Per-window reducer values of one unit: a sub-window with zero
observations yields `none` for every reducer, a populated one the reducer's
value. -/
def computeUnitFeatures (reducers : List (List Rat → Rat))
    (obs : List (List Rat)) : List (List (Option Rat)) :=
  obs.map fun w =>
    if w.isEmpty then reducers.map fun _ => none
    else reducers.map fun red => some (red w)

/-- The per-tile output of the Reducer Engine: feature vectors per unit,
plus the units recorded as `insufficient_data`. -/
structure TileFeatures where
  features : List (String × List (List (Option Rat)))
  insufficientData : List String
  deriving DecidableEq, Repr

/-- Modelled from the spec: `compute_features(tile, time_window,
reducer_names, bands) -> FeatureVector per unit` (§4.2), whose source file
is not among the visible sources.  A unit with zero observations in a
sub-window receives null values for that sub-window's reducers; a unit with
zero observations across all sub-windows is omitted from the output and
recorded as `insufficient_data`; the tile as a whole succeeds either
way. -/
def compute_features (reducers : List (List Rat → Rat))
    (units : List UnitObs) : Except TileErr TileFeatures :=
  .ok
    { features := (units.filter fun u => ! allWindowsEmpty u).map fun u =>
        (u.unitId, computeUnitFeatures reducers u.obs)
      insufficientData := (units.filter allWindowsEmpty).map fun u =>
        u.unitId }

/-! ## Remote Asset Cache: at-most-one concurrent build (spec §4.3)

`src/utils/gee.py` (the cache layer over the remote backend) is not among
the visible sources; the model below follows the spec: `get_or_create`
serializes the check-then-create sequence per key via a per-key lock.  We
model one key and arbitrarily many concurrent workers, each executing
acquire-lock → asset_exists check → (builder submission if missing) →
release; a schedule is an arbitrary interleaving of worker steps. -/

/-- Program counter of one worker's `get_or_create` call on the key. -/
inductive CachePC where
  | acquire   -- waiting to take the per-key lock
  | check     -- holding the lock, about to run asset_exists(key)
  | create    -- holding the lock, about to invoke builder() (remote submission)
  | release   -- holding the lock, about to release it
  | done      -- call returned
  deriving DecidableEq, Repr

/-- Pointwise update of the worker program counters. -/
def updatePc (f : Nat → CachePC) (w : Nat) (v : CachePC) : Nat → CachePC :=
  fun x => if x = w then v else f x

/-- Shared state: the per-key lock (holding worker, if any), every worker's
program counter, the remote namespace's existence bit for the key, and the
number of remote computation submissions made for the key. -/
structure CacheState where
  lock : Option Nat
  pcs : Nat → CachePC
  assetExists : Bool
  submissions : Nat

/-- Modelled from the spec: one atomic step of worker `w`'s
`get_or_create(key, builder)` (§4.3).  The check-then-create sequence is
guarded by the per-key lock: a worker first acquires the lock (blocking
while another worker holds it), then checks `exists(key)`; on a hit it
skips the builder, on a miss it invokes `builder()` — one remote
computation submission, after which the asset exists — and finally releases
the lock. -/
def cacheStep (s : CacheState) (w : Nat) : CacheState :=
  match s.pcs w with
  | .acquire =>
    if s.lock = none then
      { s with lock := some w, pcs := updatePc s.pcs w .check }
    else s
  | .check =>
    if s.assetExists then { s with pcs := updatePc s.pcs w .release }
    else { s with pcs := updatePc s.pcs w .create }
  | .create =>
    { s with submissions := s.submissions + 1, assetExists := true,
             pcs := updatePc s.pcs w .release }
  | .release => { s with lock := none, pcs := updatePc s.pcs w .done }
  | .done => s

/-- Run a schedule: an arbitrary finite interleaving of worker steps. -/
def runSched (sched : List Nat) (s : CacheState) : CacheState :=
  sched.foldl cacheStep s

/-- All workers start a fresh `get_or_create` call on a missing asset. -/
def initCache : CacheState :=
  { lock := none, pcs := fun _ => .acquire, assetExists := false,
    submissions := 0 }

/-- The lock-protocol invariant: at most one submission ever, the asset
exists exactly when a submission was made, only the lock holder is between
acquire and release, nobody is about to build an existing asset, and any
completed (or releasing) call implies the one submission happened. -/
def CacheInv (s : CacheState) : Prop :=
  s.submissions ≤ 1 ∧
  (s.assetExists = true ↔ s.submissions = 1) ∧
  (∀ v, s.pcs v = .check ∨ s.pcs v = .create ∨ s.pcs v = .release →
    s.lock = some v) ∧
  (∀ v, s.pcs v = .create → s.assetExists = false) ∧
  (∀ v, s.pcs v = .release ∨ s.pcs v = .done → s.submissions = 1)

end UkraineDamage

namespace UkraineDamage

/-- C10: the Makefile's `env` target is idempotent.  When `./ukraine_env`
already exists the target performs no environment creation or package
installation — its only action is echoing the activation hint — and leaves
the filesystem state unchanged; consequently, running the target twice from
any state reaches the same state as running it once, with no mutating action
beyond those of the first run. -/
theorem makefile_env_idempotent (s : FsState)
    (h : s.ukraineEnvDirExists = true) :
    (envTarget s).1 = s ∧
      (envTarget s).2 = [.echoAlreadyExists] ∧
      (∀ a ∈ (envTarget s).2, a.mutates = false) ∧
      ∀ t : FsState,
        (envTargetTwice t).1 = (envTarget t).1 ∧
          (envTargetTwice t).2.filter MakeAction.mutates
            = (envTarget t).2.filter MakeAction.mutates := by
  refine ⟨?_, ?_, ?_, ?_⟩
  · simp [envTarget, h]
  · simp [envTarget, h]
  · simp [envTarget, h, MakeAction.mutates]
  · intro t
    cases ht : t.ukraineEnvDirExists <;>
      simp [envTargetTwice, envTarget, ht, MakeAction.mutates]

/-- Witness for `makefile_env_idempotent` at the state where the
environment directory exists. -/
theorem makefile_env_idempotent_witness :
    (envTarget ⟨true⟩).1 = (⟨true⟩ : FsState) ∧
      (envTarget ⟨true⟩).2 = [.echoAlreadyExists] ∧
      (∀ a ∈ (envTarget ⟨true⟩).2, a.mutates = false) ∧
      ∀ t : FsState,
        (envTargetTwice t).1 = (envTarget t).1 ∧
          (envTargetTwice t).2.filter MakeAction.mutates
            = (envTarget t).2.filter MakeAction.mutates :=
  makefile_env_idempotent ⟨true⟩ rfl

/-- C9: the notebook's run configuration contains every field the spec
requires: aggregation method, model name and hyperparameters, per-sensor
band subsets, AOI set, damage classes retained for training, extraction
window shape, pre/post time periods, reducer names, random seed, remote and
local storage locations, and the train-on-all-data flag — for any values of
the imported constants `AOIS_TEST`, `ASSETS_PATH` and `DATA_PATH`. -/
theorem cfg_has_required_fields (aoisTest : CfgValue)
    (geeFolder localFolder : String) :
    (requiredCfgPaths.all fun p =>
      (lookupPath (cfg aoisTest geeFolder localFolder) p).isSome) = true := by
  simp [requiredCfgPaths, cfg, lookupPath, lookupKey]

/-- Removing the elements satisfying `p` leaves `length - (count of p)`
elements. -/
theorem length_filter_not {α : Type} (p : α → Bool) (l : List α) :
    (l.filter fun a => ! p a).length = l.length - (l.filter p).length := by
  induction l with
  | nil => rfl
  | cons a l ih =>
    have hle := List.length_filter_le p l
    cases h : p a <;> (simp [List.filter_cons, h, ih]; try omega)

/-- C2: `resume` dispatches exactly the tiles not recorded DONE — their
number is M − N for a manifest of M tiles with N DONE — every dispatched
entry was not DONE, every non-DONE entry is dispatched, and every DONE
entry is left untouched in the resulting manifest and is never
reprocessed. -/
theorem resume_processes_exactly_remaining (work : String → TileStatus)
    (m : List ManifestEntry) :
    (resume work m).2.length = m.length - doneCount m ∧
    (∀ e ∈ (resume work m).2, isDone e = false) ∧
    (∀ e ∈ m, isDone e = false → e ∈ (resume work m).2) ∧
    (∀ e ∈ m, isDone e = true →
      e ∉ (resume work m).2 ∧ e ∈ (resume work m).1) := by
  refine ⟨length_filter_not isDone m, ?_, ?_, ?_⟩
  · intro e he
    have := List.of_mem_filter he
    simpa using this
  · intro e he h
    exact List.mem_filter.mpr ⟨he, by simp [h]⟩
  · intro e he h
    constructor
    · intro hmem
      have := List.of_mem_filter hmem
      simp [h] at this
    · exact List.mem_map.mpr ⟨e, he, by simp [h]⟩

/-- Witness for `resume_processes_exactly_remaining` on a three-tile
manifest with one DONE tile: two tiles are dispatched and the DONE tile is
kept verbatim. -/
theorem resume_processes_exactly_remaining_witness :
    (resume (fun _ => TileStatus.done)
        [⟨"t1", .done⟩, ⟨"t2", .pending⟩, ⟨"t3", .failed⟩]).2.length
      = 3 - doneCount [⟨"t1", .done⟩, ⟨"t2", .pending⟩, ⟨"t3", .failed⟩] ∧
    (⟨"t1", .done⟩ : ManifestEntry) ∈
      (resume (fun _ => TileStatus.done)
        [⟨"t1", .done⟩, ⟨"t2", .pending⟩, ⟨"t3", .failed⟩]).1 :=
  ⟨(resume_processes_exactly_remaining _ _).1,
   ((resume_processes_exactly_remaining _ _).2.2.2 ⟨"t1", .done⟩
      (by simp) rfl).2⟩

/-- C3: the Classifier Adapter raises `SchemaMismatchError` whenever the
inference-time feature columns differ (in names, order, or count) from the
training-time columns, without ever calling the underlying model; the
underlying model's predict is reached (exactly once) only when the schemas
are identical. -/
theorem adapter_schema_guard (model : ModelHandle) (cols : List String)
    (rows : List (List Rat)) :
    (cols ≠ model.trainedCols →
      adapterPredict model cols rows = (.error .schemaMismatch, 0)) ∧
    (cols = model.trainedCols →
      adapterPredict model cols rows
        = (.ok (model.underlyingPredict rows), 1)) := by
  constructor
  · intro h
    simp [adapterPredict, h]
  · intro h
    simp [adapterPredict, h]

/-- Witness for `adapter_schema_guard` at the spec's schema example:
training columns `[VV_mean, VV_stdDev, VH_mean]` against inference columns
`[VV_mean, VH_mean]` yield `SchemaMismatchError` with zero underlying
calls. -/
theorem adapter_schema_guard_witness :
    adapterPredict ⟨["VV_mean", "VV_stdDev", "VH_mean"], fun _ => []⟩
        ["VV_mean", "VH_mean"] []
      = (.error .schemaMismatch, 0) :=
  (adapter_schema_guard _ _ _).1 (by decide)

/-- A run whose every attempt raises a transient backend error performs the
initial attempt plus exactly `retriesLeft` retries and ends FAILED. -/
theorem driveFrom_all_transient (work : Nat → Attempt)
    (h : ∀ n, work n = .err .transientBackend) :
    ∀ retriesLeft attempt, driveFrom work attempt retriesLeft
      = (.failed .transientBackend, attempt + retriesLeft + 1) := by
  intro retriesLeft
  induction retriesLeft with
  | zero =>
    intro a
    rw [driveFrom.eq_def]
    simp [h a, TileErr.isTransient]
  | succ r ih =>
    intro a
    rw [driveFrom.eq_def]
    simp [h a, TileErr.isTransient, ih (a + 1)]
    omega

/-- C4: the tile driver retries a persistently transient tile exactly up to
the configured limit (the initial attempt plus `maxRetries` retries) before
marking it FAILED; a fatal first error marks the tile FAILED after a single
attempt with zero retries; and tiles are processed independently — every
sibling tile receives its own terminal result regardless of the others. -/
theorem tile_driver_retry_policy (maxRetries : Nat) :
    (∀ work : Nat → Attempt, (∀ n, work n = .err .transientBackend) →
      driveTile work maxRetries
        = (.failed .transientBackend, maxRetries + 1)) ∧
    (∀ (work : Nat → Attempt) (e : TileErr),
      work 0 = .err e → e.isTransient = false →
      driveTile work maxRetries = (.failed e, 1)) ∧
    (∀ tiles : List (Nat → Attempt),
      (processTiles tiles maxRetries).length = tiles.length ∧
      ∀ i : Nat, (processTiles tiles maxRetries)[i]?
        = (tiles[i]?).map fun w => driveTile w maxRetries) := by
  refine ⟨?_, ?_, ?_⟩
  · intro work h
    have := driveFrom_all_transient work h maxRetries 0
    simpa [driveTile] using this
  · intro work e h0 hfatal
    have h : driveFrom work 0 maxRetries = (.failed e, 1) := by
      rw [driveFrom.eq_def]
      simp [h0, hfatal]
    simpa [driveTile] using h
  · intro tiles
    refine ⟨by simp [processTiles], ?_⟩
    intro i
    simp [processTiles]

/-- Witness for `tile_driver_retry_policy` with retry limit 3: an
always-transient tile fails after 4 attempts, a fatally failing tile fails
after 1 attempt. -/
theorem tile_driver_retry_policy_witness :
    driveTile (fun _ => .err .transientBackend) 3
      = (.failed .transientBackend, 4) ∧
    driveTile (fun _ => .err .fatalBackend) 3 = (.failed .fatalBackend, 1) :=
  ⟨(tile_driver_retry_policy 3).1 (fun _ => .err .transientBackend)
      (fun _ => rfl),
   (tile_driver_retry_policy 3).2.1 (fun _ => .err .fatalBackend)
      .fatalBackend rfl rfl⟩

/-- C5: aggregation is a pure function of the persisted TileResults —
running it leaves every TileResult unchanged, and running it a second time
on the unchanged manifest yields a byte-identical serialized output (and an
equal AggregateResult). -/
theorem aggregate_idempotent (m : List TileResult) (b : String) :
    (aggregateRun m b).2 = m ∧
    serializeAggregate (aggregateRun (aggregateRun m b).2 b).1
      = serializeAggregate (aggregateRun m b).1 ∧
    (aggregateRun (aggregateRun m b).2 b).1 = (aggregateRun m b).1 :=
  ⟨rfl, rfl, rfl⟩

/-- C6: on the 4-tile scenario (2 successes labelled [no_damage, damaged],
1 FatalBackendError failure, 1 insufficient_data) the aggregate reports a
damage rate of exactly 1/2 over the 2 valid tiles and a coverage gap of 2
of the 4 tiles. -/
theorem aggregate_four_tile_scenario :
    (aggregate scenarioManifest "adm3").damageRate = 1 / 2 ∧
    (aggregate scenarioManifest "adm3").validTiles = 2 ∧
    (aggregate scenarioManifest "adm3").damagedTiles = 1 ∧
    (aggregate scenarioManifest "adm3").coverageGapTiles = 2 ∧
    (aggregate scenarioManifest "adm3").totalTiles = 4 := by
  refine ⟨?_, by decide, by decide, by decide, by decide⟩
  show ((1 : Nat) : Rat) / ((2 : Nat) : Rat) = 1 / 2
  norm_num

/-- Folding `min` over a list bounds every member (and the seed) from
below. -/
theorem foldl_min_le (l : List Int) :
    ∀ a : Int, (∀ x ∈ l, l.foldl min a ≤ x) ∧ l.foldl min a ≤ a := by
  induction l with
  | nil => intro a; exact ⟨by simp, le_refl a⟩
  | cons b l ih =>
    intro a
    simp only [List.foldl_cons]
    refine ⟨?_, le_trans (ih (min a b)).2 (min_le_left a b)⟩
    intro x hx
    rcases List.mem_cons.mp hx with h | h
    · subst h; exact le_trans (ih (min a x)).2 (min_le_right a x)
    · exact (ih (min a b)).1 x h

/-- Folding `max` over a list bounds every member (and the seed) from
above. -/
theorem le_foldl_max (l : List Int) :
    ∀ a : Int, (∀ x ∈ l, x ≤ l.foldl max a) ∧ a ≤ l.foldl max a := by
  induction l with
  | nil => intro a; exact ⟨by simp, le_refl a⟩
  | cons b l ih =>
    intro a
    simp only [List.foldl_cons]
    refine ⟨?_, le_trans (le_max_left a b) (ih (max a b)).2⟩
    intro x hx
    rcases List.mem_cons.mp hx with h | h
    · subst h; exact le_trans (le_max_right a x) (ih (max a x)).2
    · exact (ih (max a b)).1 x h

/-- `lowEnd` bounds every member from below. -/
theorem lowEnd_le (l : List Int) (x : Int) (hx : x ∈ l) : lowEnd l ≤ x :=
  (foldl_min_le l _).1 x hx

/-- `highEnd` bounds every member from above. -/
theorem le_highEnd (l : List Int) (x : Int) (hx : x ∈ l) : x ≤ highEnd l :=
  (le_foldl_max l _).1 x hx

/-- Membership in `intRange` is exactly the closed interval. -/
theorem mem_intRange {x a b : Int} : x ∈ intRange a b ↔ a ≤ x ∧ x ≤ b := by
  unfold intRange
  rw [List.mem_map]
  constructor
  · rintro ⟨i, hi, rfl⟩
    rw [List.mem_range] at hi
    omega
  · intro h
    refine ⟨(x - a).toNat, ?_, ?_⟩
    · rw [List.mem_range]
      omega
    · omega

/-- C7: the Tiler is pure and deterministic — two invocations of
`tile(aoi, resolution)` yield the identical tile sequence — and it covers
the AOI: every point of the AOI falls in at least one returned tile. -/
theorem tiler_deterministic_and_covering (aoi : AOI) (resolution : Nat) :
    tile aoi resolution = tile aoi resolution ∧
    ∀ p ∈ aoi.pts, ∃ t ∈ tile aoi resolution, t.contains p := by
  refine ⟨rfl, ?_⟩
  intro p hp
  have hne : aoi.pts.isEmpty = false := by
    cases h : aoi.pts with
    | nil => rw [h] at hp; cases hp
    | cons q r => simp [h]
  have hspos : 0 < tileSize resolution := pow_pos (by norm_num) resolution
  refine ⟨⟨resolution, p.1 / tileSize resolution, p.2 / tileSize resolution⟩,
    ?_, ?_, ?_, ?_, ?_⟩
  · simp only [tile, hne, Bool.false_eq_true, if_false]
    apply List.mem_flatMap.mpr
    refine ⟨p.1 / tileSize resolution, ?_, ?_⟩
    · rw [mem_intRange]
      exact ⟨Int.ediv_le_ediv hspos
          (lowEnd_le _ _ (List.mem_map_of_mem Prod.fst hp)),
        Int.ediv_le_ediv hspos
          (le_highEnd _ _ (List.mem_map_of_mem Prod.fst hp))⟩
    · apply List.mem_map.mpr
      refine ⟨p.2 / tileSize resolution, ?_, rfl⟩
      rw [mem_intRange]
      exact ⟨Int.ediv_le_ediv hspos
          (lowEnd_le _ _ (List.mem_map_of_mem Prod.snd hp)),
        Int.ediv_le_ediv hspos
          (le_highEnd _ _ (List.mem_map_of_mem Prod.snd hp))⟩
  · exact Int.ediv_mul_le p.1 (by omega)
  · exact Int.lt_ediv_add_one_mul_self p.1 hspos
  · exact Int.ediv_mul_le p.2 (by omega)
  · exact Int.lt_ediv_add_one_mul_self p.2 hspos

/-- Witness for `tiler_deterministic_and_covering`: the point (5, -3) of a
one-point AOI lies in one of the tiles returned at resolution 2. -/
theorem tiler_deterministic_and_covering_witness :
    ∃ t ∈ tile ⟨"aoi", [(5, -3)]⟩ 2, t.contains (5, -3) :=
  (tiler_deterministic_and_covering ⟨"aoi", [(5, -3)]⟩ 2).2 (5, -3)
    (by simp)

/-- C8: `compute_features` always succeeds for the tile; every unit with
observations in some sub-window contributes its feature vector; a
sub-window with zero observations yields null values for every reducer;
every unit with zero observations across all sub-windows is recorded as
`insufficient_data`; and every emitted feature vector comes from a unit
that had observations (all-empty units are omitted from the output). -/
theorem compute_features_partial_coverage
    (reducers : List (List Rat → Rat)) (units : List UnitObs) :
    ∃ tf, compute_features reducers units = .ok tf ∧
      (∀ u ∈ units, allWindowsEmpty u = false →
        (u.unitId, computeUnitFeatures reducers u.obs) ∈ tf.features) ∧
      (∀ (obs : List (List Rat)) (i : Nat) (w : List Rat),
        obs[i]? = some w → w.isEmpty = true →
        (computeUnitFeatures reducers obs)[i]?
          = some (reducers.map fun _ => none)) ∧
      (∀ u ∈ units, allWindowsEmpty u = true →
        u.unitId ∈ tf.insufficientData) ∧
      (∀ fv ∈ tf.features, ∃ u ∈ units, allWindowsEmpty u = false ∧
        fv = (u.unitId, computeUnitFeatures reducers u.obs)) := by
  refine ⟨_, rfl, ?_, ?_, ?_, ?_⟩
  · intro u hu h
    exact List.mem_map.mpr ⟨u, List.mem_filter.mpr ⟨hu, by simp [h]⟩, rfl⟩
  · intro obs i w hw hempty
    have hnil : w = [] := List.isEmpty_iff.mp hempty
    subst hnil
    simp [computeUnitFeatures, hw]
  · intro u hu h
    exact List.mem_map.mpr ⟨u, List.mem_filter.mpr ⟨hu, h⟩, rfl⟩
  · intro fv hfv
    obtain ⟨u, hu, rfl⟩ := List.mem_map.mp hfv
    have hmem := List.mem_filter.mp hu
    exact ⟨u, hmem.1, by simpa using hmem.2, rfl⟩

/-- Witness for `compute_features_partial_coverage` on one reducer (sum)
and two units: unit "a" has an empty first sub-window but data in the
second, unit "b" has no observations anywhere; the tile succeeds, "a" is in
the output, "b" is recorded insufficient_data. -/
theorem compute_features_partial_coverage_witness :
    ∃ tf, compute_features [fun w => w.foldl (· + ·) 0]
        [⟨"a", [[], [1]]⟩, ⟨"b", [[], []]⟩] = .ok tf ∧
      ("a", computeUnitFeatures [fun w => w.foldl (· + ·) 0] [[], [1]])
        ∈ tf.features ∧
      "b" ∈ tf.insufficientData := by
  obtain ⟨tf, h1, h2, _, h4, _⟩ := compute_features_partial_coverage
      [fun w => w.foldl (· + ·) 0] [⟨"a", [[], [1]]⟩, ⟨"b", [[], []]⟩]
  refine ⟨tf, h1, ?_, ?_⟩
  · exact h2 ⟨"a", [[], [1]]⟩ (List.mem_cons_self _ _) rfl
  · exact h4 ⟨"b", [[], []]⟩
      (List.mem_cons_of_mem _ (List.mem_cons_self _ _)) rfl

/-- The pointwise update hits the updated worker. -/
theorem updatePc_same (f : Nat → CachePC) (w : Nat) (v : CachePC) :
    updatePc f w v w = v := by
  simp [updatePc]

/-- The pointwise update leaves other workers unchanged. -/
theorem updatePc_other (f : Nat → CachePC) (w : Nat) (v : CachePC)
    (x : Nat) (h : x ≠ w) : updatePc f w v x = f x := by
  simp [updatePc, h]

/-- One step of any worker preserves the lock-protocol invariant. -/
theorem cacheStep_inv (s : CacheState) (w : Nat) (h : CacheInv s) :
    CacheInv (cacheStep s w) := by
  obtain ⟨hsub, hae, hlock, hcreate, hdone⟩ := h
  cases hw : s.pcs w with
  | acquire =>
    by_cases hl : s.lock = none
    · simp only [cacheStep, hw, hl, if_true]
      refine ⟨hsub, hae, ?_, ?_, ?_⟩
      · intro v hv
        dsimp only at hv ⊢
        by_cases hvw : v = w
        · subst hvw; rfl
        · rw [updatePc_other _ _ _ _ hvw] at hv
          have hx := hlock v hv
          rw [hl] at hx
          cases hx
      · intro v hv
        dsimp only at hv ⊢
        by_cases hvw : v = w
        · subst hvw; rw [updatePc_same] at hv; cases hv
        · rw [updatePc_other _ _ _ _ hvw] at hv
          exact hcreate v hv
      · intro v hv
        dsimp only at hv ⊢
        by_cases hvw : v = w
        · subst hvw; rw [updatePc_same] at hv
          rcases hv with hv | hv <;> cases hv
        · rw [updatePc_other _ _ _ _ hvw] at hv
          exact hdone v hv
    · simp only [cacheStep, hw, hl, if_false]
      exact ⟨hsub, hae, hlock, hcreate, hdone⟩
  | check =>
    have hlw : s.lock = some w := hlock w (Or.inl hw)
    by_cases ha : s.assetExists = true
    · simp only [cacheStep, hw]
      rw [if_pos ha]
      refine ⟨hsub, hae, ?_, ?_, ?_⟩
      · intro v hv
        dsimp only at hv ⊢
        by_cases hvw : v = w
        · subst hvw; exact hlw
        · rw [updatePc_other _ _ _ _ hvw] at hv
          exact hlock v hv
      · intro v hv
        dsimp only at hv ⊢
        by_cases hvw : v = w
        · subst hvw; rw [updatePc_same] at hv; cases hv
        · rw [updatePc_other _ _ _ _ hvw] at hv
          exact hcreate v hv
      · intro v hv
        dsimp only at hv ⊢
        by_cases hvw : v = w
        · exact hae.mp ha
        · rw [updatePc_other _ _ _ _ hvw] at hv
          exact hdone v hv
    · have ha' : s.assetExists = false := by
        cases hb : s.assetExists
        · rfl
        · exact absurd hb ha
      simp only [cacheStep, hw]
      rw [if_neg ha]
      refine ⟨hsub, hae, ?_, ?_, ?_⟩
      · intro v hv
        dsimp only at hv ⊢
        by_cases hvw : v = w
        · subst hvw; exact hlw
        · rw [updatePc_other _ _ _ _ hvw] at hv
          exact hlock v hv
      · intro v _
        dsimp only
        exact ha'
      · intro v hv
        dsimp only at hv ⊢
        by_cases hvw : v = w
        · subst hvw; rw [updatePc_same] at hv
          rcases hv with hv | hv <;> cases hv
        · rw [updatePc_other _ _ _ _ hvw] at hv
          exact hdone v hv
  | create =>
    have hlw : s.lock = some w := hlock w (Or.inr (Or.inl hw))
    have hae0 : s.assetExists = false := hcreate w hw
    have hsub0 : s.submissions = 0 := by
      rcases Nat.le_one_iff_eq_zero_or_eq_one.mp hsub with h0 | h1
      · exact h0
      · rw [hae.mpr h1] at hae0; cases hae0
    simp only [cacheStep, hw]
    refine ⟨?_, ?_, ?_, ?_, ?_⟩
    · dsimp only; omega
    · dsimp only
      constructor
      · intro _; omega
      · intro _; rfl
    · intro v hv
      dsimp only at hv ⊢
      by_cases hvw : v = w
      · subst hvw; exact hlw
      · rw [updatePc_other _ _ _ _ hvw] at hv
        exact hlock v hv
    · intro v hv
      dsimp only at hv ⊢
      by_cases hvw : v = w
      · subst hvw; rw [updatePc_same] at hv; cases hv
      · rw [updatePc_other _ _ _ _ hvw] at hv
        have hx := hlock v (Or.inr (Or.inl hv))
        rw [hlw] at hx
        injection hx with hvw'
        exact absurd hvw'.symm hvw
    · intro v _
      dsimp only
      omega
  | release =>
    have hlw : s.lock = some w := hlock w (Or.inr (Or.inr hw))
    have hs1 : s.submissions = 1 := hdone w (Or.inl hw)
    simp only [cacheStep, hw]
    refine ⟨hsub, hae, ?_, ?_, ?_⟩
    · intro v hv
      dsimp only at hv ⊢
      by_cases hvw : v = w
      · subst hvw; rw [updatePc_same] at hv
        rcases hv with hv | hv | hv <;> cases hv
      · rw [updatePc_other _ _ _ _ hvw] at hv
        have hx := hlock v hv
        rw [hlw] at hx
        injection hx with hvw'
        exact absurd hvw'.symm hvw
    · intro v hv
      dsimp only at hv ⊢
      by_cases hvw : v = w
      · subst hvw; rw [updatePc_same] at hv; cases hv
      · rw [updatePc_other _ _ _ _ hvw] at hv
        exact hcreate v hv
    · intro v _
      exact hs1
  | done =>
    simp only [cacheStep, hw]
    exact ⟨hsub, hae, hlock, hcreate, hdone⟩

/-- The invariant holds in the initial state. -/
theorem initCache_inv : CacheInv initCache := by
  refine ⟨by decide, by decide, ?_, ?_, ?_⟩
  · intro v hv
    simp [initCache] at hv
  · intro v hv
    simp [initCache] at hv
  · intro v hv
    simp [initCache] at hv

/-- The invariant holds after every schedule from the initial state. -/
theorem runSched_inv (sched : List Nat) : CacheInv (runSched sched initCache) := by
  suffices h : ∀ s, CacheInv s → CacheInv (runSched sched s) by
    exact h initCache initCache_inv
  induction sched with
  | nil => intro s hs; exact hs
  | cons a l ih =>
    intro s hs
    exact ih (cacheStep s a) (cacheStep_inv s a hs)

/-- C1: under the per-key lock serializing check-then-create, every
interleaving of any number of concurrent `get_or_create` calls on the key
makes at most one remote computation submission, and by the time any call
has completed exactly one submission has been made — two workers racing on
the key never both submit. -/
theorem cache_at_most_one_submission (sched : List Nat) :
    (runSched sched initCache).submissions ≤ 1 ∧
    ∀ v, (runSched sched initCache).pcs v = .done →
      (runSched sched initCache).submissions = 1 := by
  obtain ⟨hsub, _, _, _, hdone⟩ := runSched_inv sched
  exact ⟨hsub, fun v hv => hdone v (Or.inr hv)⟩

/-- Witness for `cache_at_most_one_submission`: workers 0 and 1 race on the
key, worker 0 scheduled through its whole call, then worker 1; exactly one
submission results. -/
theorem cache_at_most_one_submission_witness :
    (runSched [0, 0, 0, 0, 1, 1, 1, 1] initCache).pcs 0 = .done ∧
    (runSched [0, 0, 0, 0, 1, 1, 1, 1] initCache).submissions = 1 :=
  ⟨by decide,
   (cache_at_most_one_submission [0, 0, 0, 0, 1, 1, 1, 1]).2 0 (by decide)⟩

end UkraineDamage
